import Mathlib

/-!
Verification of the ChatBot retrieval-augmented-generation pipeline.

The development shallowly embeds the two core modules, `chat_manager.py`
(prompt assembly, retrieval, response packaging, incremental add) and
`article_manager.py` (tabular ingestion), over explicit state passing:

* Python dicts become ordered association lists with replace-on-insert
  (`dictInsert`), matching insertion-order semantics of dict literals.
* The external Embedding Provider and Answer Model become function
  parameters returning `Except String _`; a raised exception is `.error`.
* The Vector Store is a list of `StoredRecord`; its query contract
  (ordered by descending similarity, length at most top_k) is modelled by
  an insertion sort followed by `take`.
* Similarity scores are exact rationals.
-/

namespace ChatBot

/-- Python dict with string keys and values, as an insertion-ordered
association list whose keys are kept unique by `dictInsert`. -/
abbrev Metadata := List (String × String)

/-- Python dict assignment `m[k] = v`: replace the value in place if the
key is present, otherwise append the new pair at the end. -/
def dictInsert (m : Metadata) (k v : String) : Metadata :=
  if m.any (fun kv => kv.1 = k) then
    m.map (fun kv => if kv.1 = k then (k, v) else kv)
  else
    m ++ [(k, v)]

/-- A match returned by the Vector Store query: similarity score plus the
stored metadata (`doc.score`, `doc.metadata` in `chat_manager.py`). -/
structure ScoredMatch where
  score : ℚ
  metadata : Metadata
deriving DecidableEq

/-- One entry of `ChatResponse.sources` as built in
`ChatManager.search_and_respond` (text, score, metadata minus text). -/
structure Source where
  text : String
  score : ℚ
  metadata : Metadata
deriving DecidableEq

/-- The dataclass `ChatResponse` of `chat_manager.py`. -/
structure ChatResponse where
  answer : String
  sources : List Source
  confidence : ℚ
  timestamp : String
  query : String
deriving DecidableEq

/-- A record stored in the Vector Store: `(id, vector, metadata)`. -/
structure StoredRecord where
  id : String
  values : List ℚ
  metadata : Metadata
deriving DecidableEq

/-- Upsert into the Vector Store: replace the record with the same id if
present, otherwise append (spec section 6, upsert with existing id replaces). -/
def upsertRecord (store : List StoredRecord) (r : StoredRecord) : List StoredRecord :=
  if store.any (fun s => s.id = r.id) then
    store.map (fun s => if s.id = r.id then r else s)
  else
    store ++ [r]

/-- Ids held by a store. -/
def ids (store : List StoredRecord) : List String :=
  store.map (fun s => s.id)

/-- Insert a record into a list that is sorted by descending score,
keeping it sorted. -/
def insertDesc (score : StoredRecord → ℚ) (r : StoredRecord) :
    List StoredRecord → List StoredRecord
  | [] => [r]
  | s :: rest =>
    if score s ≤ score r then r :: s :: rest
    else s :: insertDesc score r rest

/-- Sort records by descending score (insertion sort). -/
def sortByScoreDesc (score : StoredRecord → ℚ) : List StoredRecord → List StoredRecord
  | [] => []
  | r :: rest => insertDesc score r (sortByScoreDesc score rest)

/-- Model of the Vector Store k-nearest-neighbour query (spec section 6):
the matches ordered by descending similarity to the query, metadata
included, at most `top_k` of them. `score` abstracts the cosine
similarity the store computes between the query embedding and a record. -/
def indexQuery (score : StoredRecord → ℚ) (records : List StoredRecord)
    (top_k : Nat) : List ScoredMatch :=
  ((sortByScoreDesc score records).map fun r => ⟨score r, r.metadata⟩).take top_k

/-- The signature of the external Embedding Provider
(`self.model.embed_content`); `.error` models a raised exception. -/
abbrev EmbedFn := String → Except String (List ℚ)

/-- The signature of the external Answer Model
(`self.model.generate_content`); `.error` models a raised exception. -/
abbrev GenFn := String → Except String String

/-- The similarity the Vector Store assigns to a stored record given the
query embedding (cosine, computed inside the external service). -/
abbrev ScoreFn := List ℚ → StoredRecord → ℚ

/-- The default system prompt of `ChatManager.engineer_prompt`. -/
def defaultSystemPrompt : String :=
  "You are a helpful AI assistant. Use the provided context to answer questions accurately and concisely.\n            If the context doesn\x27t contain enough information to answer the question, say so.\n            Base your response only on the provided context."

/-- The separator line, Python `'-' * 50`. -/
def dashes : String := String.mk (List.replicate 50 '-')

/-- The fixed instruction list of the engineered prompt. -/
def instructionBlock : String :=
  "Instructions:\n        1. Read the context carefully\n        2. Answer the question based only on the provided context\n        3. If the context is insufficient, acknowledge this\n        4. Keep your response concise and focused\n        5. Include relevant citations from the provided documents"

/-- One iteration of the `formatted_context` loop of
`ChatManager.engineer_prompt`: look up the document text under the
metadata key `text` and append a `Document N:` block when it is
non-empty (`p.1` is the 0-based position, numbered from 1). -/
def fcStep (formatted : List String) (p : Nat × ScoredMatch) : List String :=
  let doc_text := (p.2.metadata.lookup "text").getD ""
  if doc_text ≠ "" then
    formatted ++ ["Document " ++ toString (p.1 + 1) ++ ":\n" ++ doc_text]
  else formatted

/-- The `formatted_context` loop of `ChatManager.engineer_prompt`,
enumerating the context. -/
def formatContext (context : List ScoredMatch) : List String :=
  context.enum.foldl fcStep []

/-- `ChatManager.engineer_prompt`: the f-string template of the source,
with the default system prompt substituted when none is supplied. -/
def engineer_prompt (question : String) (context : List ScoredMatch)
    (system_prompt : Option String) : String :=
  let sp := system_prompt.getD defaultSystemPrompt
  "\n        " ++ sp
    ++ "\n\n        Context Information:\n        " ++ dashes ++ "\n        "
    ++ String.intercalate "\n\n" (formatContext context)
    ++ "\n        " ++ dashes
    ++ "\n\n        Question: " ++ question
    ++ "\n\n        " ++ instructionBlock
    ++ "\n\n        Response:\n        "

/-- `ChatManager.query_pinecone`: embed the query (failure propagates) and
query the store with `include_metadata=True`. -/
def query_pinecone (embed : EmbedFn) (score : ScoreFn)
    (records : List StoredRecord) (query : String) (top_k : Nat) :
    Except String (List ScoredMatch) := do
  let query_embedding ← embed query
  .ok (indexQuery (score query_embedding) records top_k)

/-- `ChatManager.generate_response`: engineer the prompt and invoke the
Answer Model on it (failure propagates). -/
def generate_response (generate : GenFn) (question : String)
    (context : List ScoredMatch) (system_prompt : Option String) :
    Except String String :=
  generate (engineer_prompt question context system_prompt)

/-- One entry of the `sources` list built in `search_and_respond`. -/
def mkSource (doc : ScoredMatch) : Source :=
  { text := (doc.metadata.lookup "text").getD ""
    score := doc.score
    metadata := doc.metadata.filter (fun kv => kv.1 ≠ "text") }

/-- `ChatManager.search_and_respond`: retrieval, generation, source
extraction and the mean-score confidence, packaged as a `ChatResponse`. -/
def search_and_respond (embed : EmbedFn) (score : ScoreFn) (generate : GenFn)
    (records : List StoredRecord) (now : String)
    (query : String) (top_k : Nat) (system_prompt : Option String) :
    Except String ChatResponse := do
  let relevant_context ← query_pinecone embed score records query top_k
  let answer ← generate_response generate query relevant_context system_prompt
  let sources := relevant_context.map mkSource
  let confidence : ℚ :=
    if relevant_context.isEmpty then 0
    else (relevant_context.map (fun d => d.score)).sum / (relevant_context.length : ℚ)
  .ok ⟨answer, sources, confidence, now, query⟩

/-- `ChatManager.add_to_knowledge_base`: embed the text, default the
metadata to an empty dict, set `metadata[text] = text`, and upsert under
the id `str(hash(text))`; `hashFn` is the process-wide string hash. -/
def add_to_knowledge_base (hashFn : String → Int) (embed : EmbedFn)
    (store : List StoredRecord) (text : String) (metadata : Option Metadata) :
    Except String (List StoredRecord) := do
  let embedding ← embed text
  let md := dictInsert (metadata.getD []) "text" text
  .ok (upsertRecord store ⟨toString (hashFn text), embedding, md⟩)

/-- Python `str.strip()` on the character list (remove leading and
trailing whitespace). -/
def pyStrip (s : String) : String :=
  String.mk (((s.data.dropWhile Char.isWhitespace).reverse.dropWhile Char.isWhitespace).reverse)

/-- A tabular row: one optional cell per column, `none` for a missing
(`pd.notna` false) value, `some v` for the stringified value. -/
abbrev Row := List (Option String)

/-- A parsed tabular file: `Path(file_path).name`, the column list, and
the rows in order (the pandas default integer index is the position). -/
structure CsvFile where
  name : String
  columns : List String
  rows : List Row
deriving DecidableEq

/-- The outcome of `pd.read_csv` on one file: a dataframe, or one of the
exceptions `process_csv_file` distinguishes. -/
inductive CsvParse where
  | parsed (f : CsvFile)
  | emptyData
  | parserError (msg : String)
  | otherError (msg : String)
deriving DecidableEq

/-- The `text_content` of one row: the stringified non-missing values in
column order joined by a single space. -/
def rowText (columns : List String) (row : Row) : String :=
  String.intercalate " " ((columns.zip row).filterMap (fun cr => cr.2))

/-- One step of the metadata dict spread `**{col: str(row[col]) ...}`:
insert the column value when the cell is non-missing. -/
def colStep (m : Metadata) (cr : String × Option String) : Metadata :=
  match cr.2 with
  | some v => dictInsert m cr.1 v
  | none => m

/-- The metadata dict literal built for one row in
`ArticleManager.process_csv_file`: `text`, `source_file`, `row_index`
followed by the spread of the non-missing per-column values, with dict
replace-on-insert semantics. -/
def buildRowMetadata (fileName : String) (columns : List String) (row : Row)
    (index : Nat) (text_content : String) : Metadata :=
  (columns.zip row).foldl colStep
    (dictInsert (dictInsert (dictInsert [] "text" text_content)
      "source_file" fileName) "row_index" (toString index))

/-- Modelled from the spec: `PineconeManager.upsert_embedding` is imported
by `article_manager.py` but its module is not under src. Per the spec,
each row identifier is derived deterministically as
`(source_file_name, row_index)` — both present in the metadata — and an
upsert with an existing id replaces the stored record. -/
def upsert_embedding (store : List StoredRecord) (vector : List ℚ)
    (metadata : Metadata) : List StoredRecord :=
  upsertRecord store
    ⟨(metadata.lookup "source_file").getD "" ++ ":"
        ++ (metadata.lookup "row_index").getD "",
      vector, metadata⟩

/-- The signature of the store upsert as seen by `process_csv_file`;
`.error` models a raised exception (caught by the per-row handler). -/
abbrev UpsertFn := List StoredRecord → List ℚ → Metadata → Except String (List StoredRecord)

/-- The non-failing instantiation of the store upsert. -/
def pineUpsert : UpsertFn := fun store v m => .ok (upsert_embedding store v m)

/-- The body of the per-row loop of `ArticleManager.process_csv_file`:
build `text_content`, skip the row when it strips to empty, otherwise
embed and upsert; the enclosing try/except turns any embedding or upsert
exception into log-and-continue, leaving the store unchanged. -/
def processRow (embed : EmbedFn) (upsertE : UpsertFn) (fileName : String)
    (columns : List String) (store : List StoredRecord) (index : Nat)
    (row : Row) : List StoredRecord :=
  let text_content := rowText columns row
  if pyStrip text_content = "" then store
  else
    match embed text_content with
    | .error _ => store
    | .ok embedding =>
      match upsertE store embedding
          (buildRowMetadata fileName columns row index text_content) with
      | .error _ => store
      | .ok store' => store'

/-- The `df.iterrows()` loop of `process_csv_file`, threading the store
and the 0-based row index. -/
def processRows (embed : EmbedFn) (upsertE : UpsertFn) (fileName : String)
    (columns : List String) :
    List StoredRecord → Nat → List Row → List StoredRecord
  | store, _, [] => store
  | store, index, row :: rest =>
    processRows embed upsertE fileName columns
      (processRow embed upsertE fileName columns store index row)
      (index + 1) rest

/-- `ArticleManager.process_csv_file`. The second component of the result
is the value the Python function returns: the function is annotated
`-> None` and every return statement is bare, so it is always `none`.
`EmptyDataError` and `ParserError` are caught and logged; any other
read failure is logged and re-raised. -/
def process_csv_file (embed : EmbedFn) (upsertE : UpsertFn)
    (store : List StoredRecord) (input : CsvParse) :
    Except String (List StoredRecord × Option Nat) :=
  match input with
  | .parsed f =>
    if f.rows.isEmpty then .ok (store, none)
    else .ok (processRows embed upsertE f.name f.columns store 0 f.rows, none)
  | .emptyData => .ok (store, none)
  | .parserError _ => .ok (store, none)
  | .otherError e => .error e

/-- `ArticleManager.process_csv_files` (directory mode): process each
enumerated file in order; an exception raised by `process_csv_file` is
re-raised by the enclosing handler and aborts the loop. -/
def process_csv_files (embed : EmbedFn) (upsertE : UpsertFn) :
    List StoredRecord → List CsvParse → Except String (List StoredRecord)
  | store, [] => .ok store
  | store, f :: rest =>
    match process_csv_file embed upsertE store f with
    | .ok (store', _) => process_csv_files embed upsertE store' rest
    | .error e => .error e

/-- The record a surviving row gets upserted as (with the non-failing
store), or `none` when the row is skipped: skipped because its text
strips to empty or because its embedding raises. Deterministic in the
row, its index and the file name. -/
def rowRecord (embed : EmbedFn) (fileName : String) (columns : List String)
    (index : Nat) (row : Row) : Option StoredRecord :=
  let t := rowText columns row
  if pyStrip t = "" then none
  else
    match embed t with
    | .error _ => none
    | .ok v =>
      let md := buildRowMetadata fileName columns row index t
      some ⟨(md.lookup "source_file").getD "" ++ ":"
              ++ (md.lookup "row_index").getD "", v, md⟩

/-- The ids upserted by a run of `processRows` with the non-failing
store, in order. -/
def rowIds (embed : EmbedFn) (fileName : String) (columns : List String) :
    Nat → List Row → List String
  | _, [] => []
  | index, row :: rest =>
    match rowRecord embed fileName columns index row with
    | none => rowIds embed fileName columns (index + 1) rest
    | some r => r.id :: rowIds embed fileName columns (index + 1) rest

/-- The failure of one unit of row work: the Embedding Provider raises on
the row text, or it succeeds and the store upsert raises at the current
store. -/
def rowStepFails (embed : EmbedFn) (upsertE : UpsertFn) (fileName : String)
    (columns : List String) (store : List StoredRecord) (index : Nat)
    (row : Row) : Prop :=
  (∃ e, embed (rowText columns row) = .error e) ∨
  (∃ v e, embed (rowText columns row) = .ok v ∧
    upsertE store v (buildRowMetadata fileName columns row index (rowText columns row))
      = .error e)

/-! Concrete fixtures used by witnesses and counterexamples. -/

/-- An Embedding Provider stub that always succeeds. -/
def okEmbed : EmbedFn := fun _ => .ok [1]

/-- An Embedding Provider stub that always raises. -/
def badEmbed : EmbedFn := fun _ => .error "embedding failed"

/-- An Answer Model stub that always succeeds. -/
def okGenerate : GenFn := fun _ => .ok "generated answer"

/-- An Answer Model stub that always raises. -/
def badGenerate : GenFn := fun _ => .error "generation failed"

/-- A similarity model for the fixtures: a record scores as the head of
its stored vector (the fixtures store each record's similarity to the
test query there). -/
def headScore : ScoreFn := fun _ r => r.values.headD 0

/-- The 5-record corpus of the spec scenario: two records score 0.95 and
0.82 against the query embedding, the rest lower. -/
def scenarioCorpus : List StoredRecord :=
  [⟨"d1", [0.95], [("text", "t1")]⟩,
   ⟨"d2", [0.82], [("text", "t2")]⟩,
   ⟨"d3", [0.40], [("text", "t3")]⟩,
   ⟨"d4", [0.10], [("text", "t4")]⟩,
   ⟨"d5", [0.05], [("text", "t5")]⟩]

/-- A corpus whose single record has cosine similarity -1 to the query
embedding (opposite unit vectors). -/
def negCorpus : List StoredRecord := [⟨"n1", [-1], [("text", "tn")]⟩]

/-- A stand-in for the process-wide string hash of
`add_to_knowledge_base`. -/
def exHash : String → Int := fun s => (s.length : Int)

/-- The scenario file of the spec: two valid rows and one all-empty row. -/
def scenarioFile : CsvFile :=
  ⟨"sample.csv", ["colA", "colB"],
   [[some "alpha", some "beta"], [none, none], [some "gamma", none]]⟩

/-- A file whose single column is named `source_file`, colliding with the
reserved metadata key. -/
def collisionFile : CsvFile :=
  ⟨"f.csv", ["source_file"], [[some "evil"]]⟩

/-! Spec-side prompt assembly, written from the words of the
specification (section 4.2, prompt assembly protocol) to be compared with
`engineer_prompt`. -/

/-- Spec-side rendering of the context: each retrieved passage becomes a
numbered block `Document N:` followed by its text, numbered by retrieval
rank starting at 1; passages with empty text are omitted but still
consume their rank slot in the numbering. -/
def specContextBlocks (texts : List String) : List String :=
  texts.enum.filterMap
    (fun p => if p.2 = "" then none
      else some ("Document " ++ toString (p.1 + 1) ++ ":\n" ++ p.2))

/-- First part of the spec-side prompt: the system/grounding instruction. -/
def sysSection (sysInstr : String) : String := "\n        " ++ sysInstr

/-- Second part of the spec-side prompt: the labeled context section
holding the rendered document blocks. -/
def contextSection (blocks : List String) : String :=
  "\n\n        Context Information:\n        " ++ dashes ++ "\n        "
    ++ String.intercalate "\n\n" blocks ++ "\n        " ++ dashes

/-- Third part of the spec-side prompt: the literal question. -/
def questionSection (question : String) : String :=
  "\n\n        Question: " ++ question

/-- Fourth part of the spec-side prompt: the fixed instruction list and
the response cue. -/
def instructionSection : String :=
  "\n\n        " ++ instructionBlock ++ "\n\n        Response:\n        "

/-- The spec-side prompt: the four parts concatenated in the fixed order
system instruction, context section, question, instruction list. -/
def specPrompt (sysInstr : String) (blocks : List String) (question : String) : String :=
  sysSection sysInstr ++ contextSection blocks ++ questionSection question
    ++ instructionSection

/-! Helper lemmas about dict lookup and insertion. -/

theorem lookup_cons (a : String) (kv : String × String) (l : Metadata) :
    List.lookup a (kv :: l) = if a = kv.1 then some kv.2 else List.lookup a l := by
  obtain ⟨k, b⟩ := kv
  by_cases h : a = k
  · simp [List.lookup, h]
  · have hb : (a == k) = false := beq_eq_false_iff_ne.mpr h
    simp [List.lookup, hb, h]

theorem lookup_map_self (m : Metadata) (k v : String)
    (h : ∃ kv ∈ m, kv.1 = k) :
    (m.map (fun kv => if kv.1 = k then (k, v) else kv)).lookup k = some v := by
  induction m with
  | nil => simp at h
  | cons kv rest ih =>
    by_cases hh : kv.1 = k
    · simp [List.map_cons, if_pos hh, lookup_cons]
    · rw [List.map_cons, if_neg hh, lookup_cons, if_neg (Ne.symm hh)]
      apply ih
      rcases h with ⟨kv', hkv', hk⟩
      rcases List.mem_cons.mp hkv' with h1 | h1
      · exact absurd (h1 ▸ hk) hh
      · exact ⟨kv', h1, hk⟩

theorem lookup_map_ne (m : Metadata) (k v k' : String) (h : k' ≠ k) :
    (m.map (fun kv => if kv.1 = k then (k, v) else kv)).lookup k' = m.lookup k' := by
  induction m with
  | nil => simp
  | cons kv rest ih =>
    by_cases hh : kv.1 = k
    · rw [List.map_cons, if_pos hh, lookup_cons, lookup_cons, hh]
      simp only [if_neg h]
      exact ih
    · rw [List.map_cons, if_neg hh, lookup_cons, lookup_cons]
      by_cases hk' : k' = kv.1
      · simp [hk']
      · simp only [if_neg hk']
        exact ih

theorem lookup_append_single_self (m : Metadata) (k v : String)
    (h : ∀ kv ∈ m, kv.1 ≠ k) :
    (m ++ [(k, v)]).lookup k = some v := by
  induction m with
  | nil => simp [lookup_cons]
  | cons kv rest ih =>
    have h1 : kv.1 ≠ k := h kv (List.mem_cons_self kv rest)
    rw [List.cons_append, lookup_cons, if_neg (Ne.symm h1)]
    exact ih (fun kv' hkv' => h kv' (List.mem_cons_of_mem kv hkv'))

theorem lookup_append_single_ne (m : Metadata) (k v k' : String) (h : k' ≠ k) :
    (m ++ [(k, v)]).lookup k' = m.lookup k' := by
  induction m with
  | nil => simp [lookup_cons, if_neg h]
  | cons kv rest ih =>
    rw [List.cons_append, lookup_cons, lookup_cons, ih]

theorem lookup_dictInsert_self (m : Metadata) (k v : String) :
    (dictInsert m k v).lookup k = some v := by
  unfold dictInsert
  split
  · rename_i h
    simp only [List.any_eq_true, decide_eq_true_eq] at h
    exact lookup_map_self m k v h
  · rename_i h
    simp only [List.any_eq_true, decide_eq_true_eq, not_exists, not_and] at h
    exact lookup_append_single_self m k v h

theorem lookup_dictInsert_ne (m : Metadata) (k v k' : String) (h : k' ≠ k) :
    (dictInsert m k v).lookup k' = m.lookup k' := by
  unfold dictInsert
  split
  · exact lookup_map_ne m k v k' h
  · exact lookup_append_single_ne m k v k' h

theorem lookup_foldl_colStep_not_mem (pairs : List (String × Option String)) (k : String) :
    ∀ base, (∀ p ∈ pairs, p.1 ≠ k) →
      (pairs.foldl colStep base).lookup k = base.lookup k := by
  induction pairs with
  | nil => intro base _; rfl
  | cons p rest ih =>
    intro base h
    rw [List.foldl_cons, ih _ (fun p' hp' => h p' (List.mem_cons_of_mem p hp'))]
    cases hp : p.2 with
    | none => simp [colStep, hp]
    | some v =>
      simp only [colStep, hp]
      exact lookup_dictInsert_ne base p.1 v k (Ne.symm (h p (List.mem_cons_self p rest)))

theorem lookup_foldl_colStep_mem (pairs : List (String × Option String)) (c val : String) :
    ∀ base, (pairs.map Prod.fst).Nodup → (c, some val) ∈ pairs →
      (pairs.foldl colStep base).lookup c = some val := by
  induction pairs with
  | nil => intro base _ hmem; simp at hmem
  | cons p rest ih =>
    intro base hnd hmem
    rw [List.foldl_cons]
    rcases List.mem_cons.mp hmem with h1 | h1
    · have hp1 : p.1 = c := by rw [← h1]
      have hnotin : p.1 ∉ rest.map Prod.fst := (List.nodup_cons.mp (by simpa using hnd)).1
      have hkeys : ∀ p' ∈ rest, p'.1 ≠ c := by
        intro p' hp' hc
        exact hnotin (hp1 ▸ hc ▸ List.mem_map_of_mem Prod.fst hp')
      rw [lookup_foldl_colStep_not_mem rest c _ hkeys, ← h1]
      exact lookup_dictInsert_self base c val
    · exact ih (colStep base p) (by simpa using (List.nodup_cons.mp (by simpa using hnd)).2) h1

/-! Helper lemmas for prompt assembly. -/

theorem foldl_fcStep (ps : List (Nat × ScoredMatch)) :
    ∀ acc, ps.foldl fcStep acc = acc ++ ps.filterMap
      (fun p =>
        let t := (p.2.metadata.lookup "text").getD ""
        if t = "" then none
        else some ("Document " ++ toString (p.1 + 1) ++ ":\n" ++ t)) := by
  induction ps with
  | nil => intro acc; simp
  | cons p rest ih =>
    intro acc
    rw [List.foldl_cons, ih]
    by_cases ht : (p.2.metadata.lookup "text").getD "" = ""
    · simp [fcStep, ht]
    · simp [fcStep, ht, List.append_assoc]

theorem formatContext_eq (context : List ScoredMatch) :
    formatContext context =
      specContextBlocks (context.map (fun d => (d.metadata.lookup "text").getD "")) := by
  unfold formatContext specContextBlocks
  rw [List.enum_map, List.filterMap_map, foldl_fcStep, List.nil_append]
  congr 1

theorem engineer_prompt_eq (question : String) (context : List ScoredMatch)
    (system_prompt : Option String) :
    engineer_prompt question context system_prompt =
      specPrompt (system_prompt.getD defaultSystemPrompt)
        (specContextBlocks (context.map (fun d => (d.metadata.lookup "text").getD "")))
        question := by
  rw [← formatContext_eq]
  unfold engineer_prompt specPrompt sysSection contextSection questionSection instructionSection
  simp only [String.append_assoc]

/-! Helper lemmas about the Vector Store model. -/

theorem length_insertDesc (score : StoredRecord → ℚ) (r : StoredRecord) (l : List StoredRecord) :
    (insertDesc score r l).length = l.length + 1 := by
  induction l with
  | nil => rfl
  | cons s rest ih =>
    unfold insertDesc
    split
    · simp
    · simp [ih]

theorem length_sortByScoreDesc (score : StoredRecord → ℚ) (l : List StoredRecord) :
    (sortByScoreDesc score l).length = l.length := by
  induction l with
  | nil => rfl
  | cons r rest ih => simp [sortByScoreDesc, length_insertDesc, ih]

theorem length_indexQuery (score : StoredRecord → ℚ) (records : List StoredRecord)
    (top_k : Nat) :
    (indexQuery score records top_k).length = min top_k records.length := by
  simp [indexQuery, List.length_take, length_sortByScoreDesc]

theorem any_id_iff (store : List StoredRecord) (x : String) :
    (store.any (fun s => s.id = x)) = true ↔ x ∈ ids store := by
  simp only [List.any_eq_true, decide_eq_true_eq, ids, List.mem_map]

theorem ids_upsertRecord_of_mem (store : List StoredRecord) (r : StoredRecord)
    (h : r.id ∈ ids store) :
    ids (upsertRecord store r) = ids store := by
  unfold upsertRecord
  rw [if_pos ((any_id_iff store r.id).mpr h)]
  unfold ids
  rw [List.map_map]
  apply List.map_congr_left
  intro s _
  by_cases hs : s.id = r.id
  · simp [hs]
  · simp [hs]

theorem length_upsertRecord_of_mem (store : List StoredRecord) (r : StoredRecord)
    (h : r.id ∈ ids store) :
    (upsertRecord store r).length = store.length := by
  unfold upsertRecord
  rw [if_pos ((any_id_iff store r.id).mpr h)]
  simp

theorem mem_ids_upsertRecord (store : List StoredRecord) (r : StoredRecord) (x : String) :
    x ∈ ids (upsertRecord store r) ↔ x ∈ ids store ∨ x = r.id := by
  unfold upsertRecord
  split
  · rename_i h
    have hmem : r.id ∈ ids store := (any_id_iff store r.id).mp h
    have : ids (store.map fun s => if s.id = r.id then r else s) = ids store := by
      have := ids_upsertRecord_of_mem store r hmem
      unfold upsertRecord at this
      rwa [if_pos ((any_id_iff store r.id).mpr hmem)] at this
    rw [this]
    constructor
    · exact Or.inl
    · rintro (hx | hx)
      · exact hx
      · exact hx ▸ hmem
  · unfold ids
    simp [List.map_append]

theorem processRows_nil (embed : EmbedFn) (upsertE : UpsertFn) (fileName : String)
    (columns : List String) (store : List StoredRecord) (index : Nat) :
    processRows embed upsertE fileName columns store index [] = store := rfl

theorem processRows_cons (embed : EmbedFn) (upsertE : UpsertFn) (fileName : String)
    (columns : List String) (store : List StoredRecord) (index : Nat)
    (row : Row) (rest : List Row) :
    processRows embed upsertE fileName columns store index (row :: rest) =
      processRows embed upsertE fileName columns
        (processRow embed upsertE fileName columns store index row)
        (index + 1) rest := rfl

theorem rowIds_nil (embed : EmbedFn) (fileName : String) (columns : List String)
    (index : Nat) :
    rowIds embed fileName columns index [] = [] := rfl

theorem rowIds_cons (embed : EmbedFn) (fileName : String) (columns : List String)
    (index : Nat) (row : Row) (rest : List Row) :
    rowIds embed fileName columns index (row :: rest) =
      match rowRecord embed fileName columns index row with
      | none => rowIds embed fileName columns (index + 1) rest
      | some r => r.id :: rowIds embed fileName columns (index + 1) rest := rfl

theorem processRow_pineUpsert (embed : EmbedFn) (fileName : String)
    (columns : List String) (store : List StoredRecord) (index : Nat) (row : Row) :
    processRow embed pineUpsert fileName columns store index row =
      match rowRecord embed fileName columns index row with
      | none => store
      | some r => upsertRecord store r := by
  unfold processRow rowRecord
  by_cases hs : pyStrip (rowText columns row) = ""
  · simp [hs]
  · cases h : embed (rowText columns row) with
    | error e => simp [hs, h]
    | ok v => simp [hs, h, pineUpsert, upsert_embedding]

theorem mem_ids_processRows (embed : EmbedFn) (fileName : String)
    (columns : List String) (rows : List Row) :
    ∀ (store : List StoredRecord) (index : Nat) (x : String),
      x ∈ ids (processRows embed pineUpsert fileName columns store index rows) ↔
        x ∈ ids store ∨ x ∈ rowIds embed fileName columns index rows := by
  induction rows with
  | nil => intro store index x; simp [processRows_nil, rowIds_nil]
  | cons row rest ih =>
    intro store index x
    rw [processRows_cons, ih, processRow_pineUpsert, rowIds_cons]
    cases h : rowRecord embed fileName columns index row with
    | none => rfl
    | some r =>
      rw [mem_ids_upsertRecord]
      constructor
      · rintro ((hx | hx) | hx)
        · exact Or.inl hx
        · exact Or.inr (by simp [hx])
        · exact Or.inr (List.mem_cons_of_mem _ hx)
      · rintro (hx | hx)
        · exact Or.inl (Or.inl hx)
        · rcases List.mem_cons.mp hx with h1 | h1
          · exact Or.inl (Or.inr h1)
          · exact Or.inr h1

theorem length_processRows_of_subset (embed : EmbedFn) (fileName : String)
    (columns : List String) (rows : List Row) :
    ∀ (store : List StoredRecord) (index : Nat),
      (∀ i ∈ rowIds embed fileName columns index rows, i ∈ ids store) →
      (processRows embed pineUpsert fileName columns store index rows).length
        = store.length := by
  induction rows with
  | nil => intro store index _; rfl
  | cons row rest ih =>
    intro store index h
    rw [processRows_cons, processRow_pineUpsert]
    cases hr : rowRecord embed fileName columns index row with
    | none =>
      apply ih
      intro i hi
      apply h
      rw [rowIds_cons, hr]
      exact hi
    | some r =>
      have hrid : r.id ∈ ids store := by
        apply h
        rw [rowIds_cons, hr]
        exact List.mem_cons_self _ _
      rw [ih _ _ ?_, length_upsertRecord_of_mem store r hrid]
      intro i hi
      rw [ids_upsertRecord_of_mem store r hrid]
      apply h
      rw [rowIds_cons, hr]
      exact List.mem_cons_of_mem _ hi

/-! Helper lemmas about the respond path. -/

theorem search_and_respond_ok (embed : EmbedFn) (score : ScoreFn) (generate : GenFn)
    (records : List StoredRecord) (now q : String) (k : Nat) (sp : Option String)
    (qvec : List ℚ) (a : String)
    (h1 : embed q = .ok qvec)
    (h2 : generate (engineer_prompt q (indexQuery (score qvec) records k) sp) = .ok a) :
    search_and_respond embed score generate records now q k sp =
      .ok ⟨a, (indexQuery (score qvec) records k).map mkSource,
        (if (indexQuery (score qvec) records k).isEmpty then 0
         else ((indexQuery (score qvec) records k).map (fun d => d.score)).sum
           / ((indexQuery (score qvec) records k).length : ℚ)), now, q⟩ := by
  simp [search_and_respond, query_pinecone, generate_response, h1, h2, Except.bind, bind]

theorem search_and_respond_embed_error (embed : EmbedFn) (score : ScoreFn)
    (generate : GenFn) (records : List StoredRecord) (now q : String) (k : Nat)
    (sp : Option String) (e : String) (h : embed q = .error e) :
    search_and_respond embed score generate records now q k sp = .error e := by
  simp [search_and_respond, query_pinecone, h, Except.bind, bind]

theorem search_and_respond_gen_error (embed : EmbedFn) (score : ScoreFn)
    (generate : GenFn) (records : List StoredRecord) (now q : String) (k : Nat)
    (sp : Option String) (qvec : List ℚ) (g : String)
    (h1 : embed q = .ok qvec)
    (h2 : generate (engineer_prompt q (indexQuery (score qvec) records k) sp) = .error g) :
    search_and_respond embed score generate records now q k sp = .error g := by
  simp [search_and_respond, query_pinecone, generate_response, h1, h2, Except.bind, bind]

theorem search_and_respond_inv (embed : EmbedFn) (score : ScoreFn) (generate : GenFn)
    (records : List StoredRecord) (now q : String) (k : Nat) (sp : Option String)
    (r : ChatResponse)
    (h : search_and_respond embed score generate records now q k sp = .ok r) :
    ∃ qvec, embed q = .ok qvec ∧
      generate (engineer_prompt q (indexQuery (score qvec) records k) sp) = .ok r.answer ∧
      r.sources = (indexQuery (score qvec) records k).map mkSource ∧
      r.confidence = (if (indexQuery (score qvec) records k).isEmpty then 0
        else ((indexQuery (score qvec) records k).map (fun d => d.score)).sum
          / ((indexQuery (score qvec) records k).length : ℚ)) ∧
      r.timestamp = now ∧ r.query = q := by
  cases he : embed q with
  | error e =>
    rw [search_and_respond_embed_error embed score generate records now q k sp e he] at h
    exact absurd h (by simp)
  | ok qvec =>
    cases hg : generate (engineer_prompt q (indexQuery (score qvec) records k) sp) with
    | error g =>
      rw [search_and_respond_gen_error embed score generate records now q k sp qvec g he hg] at h
      exact absurd h (by simp)
    | ok a =>
      rw [search_and_respond_ok embed score generate records now q k sp qvec a he hg] at h
      have heq := Except.ok.inj h
      subst heq
      exact ⟨qvec, rfl, hg, rfl, rfl, rfl, rfl⟩

theorem mean_bound (l : List ℚ) (hne : l ≠ []) (h : ∀ x ∈ l, 0 ≤ x ∧ x ≤ 1) :
    0 ≤ l.sum / (l.length : ℚ) ∧ l.sum / (l.length : ℚ) ≤ 1 := by
  have hlen : (0:ℚ) < l.length := by exact_mod_cast List.length_pos.mpr hne
  constructor
  · exact div_nonneg (List.sum_nonneg (fun x hx => (h x hx).1)) hlen.le
  · rw [div_le_one hlen]
    have := List.sum_le_card_nsmul l 1 (fun x hx => (h x hx).2)
    simpa using this

theorem engineer_prompt_contains_instr (q : String) (ctx : List ScoredMatch)
    (sp : Option String) :
    ∃ pre post, engineer_prompt q ctx sp = pre ++ instructionBlock ++ post := by
  refine ⟨"\n        " ++ (sp.getD defaultSystemPrompt)
    ++ "\n\n        Context Information:\n        " ++ dashes ++ "\n        "
    ++ String.intercalate "\n\n" (formatContext ctx)
    ++ "\n        " ++ dashes
    ++ "\n\n        Question: " ++ q
    ++ "\n\n        ", "\n\n        Response:\n        ", ?_⟩
  unfold engineer_prompt
  simp only [String.append_assoc]

/-! The claims. -/

/-- C2: for every query and every list of retrieved passages, the
assembled prompt concatenates, in fixed order, the system/grounding
instruction (the default when the caller supplies none), the labeled
context section with the retrieved passages rendered as numbered
`Document N:` blocks in retrieval-rank order (empty-text passages
omitted from the rendering but still consuming their rank slot in the
numbering), the literal question, and the fixed instruction list. -/
theorem prompt_assembly_matches_spec (question : String) (context : List ScoredMatch)
    (system_prompt : Option String) :
    engineer_prompt question context system_prompt =
      specPrompt (system_prompt.getD defaultSystemPrompt)
        (specContextBlocks (context.map (fun d => (d.metadata.lookup "text").getD "")))
        question :=
  engineer_prompt_eq question context system_prompt

/-- C4: a respond call against an empty corpus completes without error,
returns confidence 0 and empty sources, and the prompt assembled for the
Answer Model still contains the fixed instruction block. -/
theorem empty_corpus_response (embed : EmbedFn) (score : ScoreFn) (generate : GenFn)
    (now q : String) (k : Nat) (sp : Option String) (qvec : List ℚ) (a : String)
    (h1 : embed q = .ok qvec)
    (h2 : generate (engineer_prompt q [] sp) = .ok a) :
    search_and_respond embed score generate [] now q k sp = .ok ⟨a, [], 0, now, q⟩ ∧
    ∃ pre post, engineer_prompt q [] sp = pre ++ instructionBlock ++ post := by
  have hempty : indexQuery (score qvec) [] k = [] := by simp [indexQuery, sortByScoreDesc]
  constructor
  · have hr := search_and_respond_ok embed score generate [] now q k sp qvec a h1
      (by rwa [hempty])
    rw [hempty] at hr
    exact hr
  · exact engineer_prompt_contains_instr q [] sp

/-- C8: in the respond path a failure to embed the query and a failure of
the Answer Model are each fatal, propagated to the caller as the error;
a successful call returns exactly the answer generated from the
assembled prompt, never a canned or partial one. -/
theorem respond_failures_propagate :
    (∀ (embed : EmbedFn) (score : ScoreFn) (generate : GenFn)
       (records : List StoredRecord) (now q : String) (k : Nat) (sp : Option String)
       (e : String),
       embed q = .error e →
       search_and_respond embed score generate records now q k sp = .error e) ∧
    (∀ (embed : EmbedFn) (score : ScoreFn) (generate : GenFn)
       (records : List StoredRecord) (now q : String) (k : Nat) (sp : Option String)
       (qvec : List ℚ) (g : String),
       embed q = .ok qvec →
       generate (engineer_prompt q (indexQuery (score qvec) records k) sp) = .error g →
       search_and_respond embed score generate records now q k sp = .error g) ∧
    (∀ (embed : EmbedFn) (score : ScoreFn) (generate : GenFn)
       (records : List StoredRecord) (now q : String) (k : Nat) (sp : Option String)
       (r : ChatResponse),
       search_and_respond embed score generate records now q k sp = .ok r →
       ∃ qvec, embed q = .ok qvec ∧
         generate (engineer_prompt q (indexQuery (score qvec) records k) sp)
           = .ok r.answer) := by
  refine ⟨?_, ?_, ?_⟩
  · intro embed score generate records now q k sp e he
    exact search_and_respond_embed_error embed score generate records now q k sp e he
  · intro embed score generate records now q k sp qvec g h1 h2
    exact search_and_respond_gen_error embed score generate records now q k sp qvec g h1 h2
  · intro embed score generate records now q k sp r h
    obtain ⟨qvec, h1, h2, _⟩ := search_and_respond_inv embed score generate records now q k sp r h
    exact ⟨qvec, h1, h2⟩

/-- C3: the returned sources number at most the requested top_k, preserve
retrieval rank order with each source carrying its similarity score, the
text kept separately and the metadata with the text field removed; and
against a corpus with fewer records than top_k the sources have the
corpus size, with no error raised. -/
theorem sources_bounded_and_rank_preserved :
    (∀ (embed : EmbedFn) (score : ScoreFn) (generate : GenFn)
       (records : List StoredRecord) (now q : String) (k : Nat) (sp : Option String)
       (qvec : List ℚ) (r : ChatResponse),
       embed q = .ok qvec →
       search_and_respond embed score generate records now q k sp = .ok r →
       r.sources.length ≤ k ∧
       (records.length < k → r.sources.length = records.length) ∧
       r.sources.map (fun s => s.score)
           = (indexQuery (score qvec) records k).map (fun m => m.score) ∧
       r.sources.map (fun s => s.text)
           = (indexQuery (score qvec) records k).map
               (fun m => (m.metadata.lookup "text").getD "") ∧
       r.sources.map (fun s => s.metadata)
           = (indexQuery (score qvec) records k).map
               (fun m => m.metadata.filter (fun kv => kv.1 ≠ "text"))) ∧
    (∀ (embed : EmbedFn) (score : ScoreFn) (generate : GenFn)
       (records : List StoredRecord) (now q : String) (k : Nat) (sp : Option String)
       (qvec : List ℚ) (a : String),
       embed q = .ok qvec →
       generate (engineer_prompt q (indexQuery (score qvec) records k) sp) = .ok a →
       ∃ r, search_and_respond embed score generate records now q k sp = .ok r) := by
  constructor
  · intro embed score generate records now q k sp qvec r h1 h2
    obtain ⟨qvec', h1', hg, hs, hc, _, _⟩ :=
      search_and_respond_inv embed score generate records now q k sp r h2
    rw [h1] at h1'
    have hq : qvec = qvec' := Except.ok.inj h1'
    subst hq
    refine ⟨?_, ?_, ?_, ?_, ?_⟩
    · rw [hs, List.length_map, length_indexQuery]
      exact min_le_left _ _
    · intro hlt
      rw [hs, List.length_map, length_indexQuery]
      exact min_eq_right hlt.le
    · rw [hs, List.map_map]
      rfl
    · rw [hs, List.map_map]
      rfl
    · rw [hs, List.map_map]
      rfl
  · intro embed score generate records now q k sp qvec a h1 h2
    exact ⟨_, search_and_respond_ok embed score generate records now q k sp qvec a h1 h2⟩

/-- C1 (amended): the returned confidence is the arithmetic mean of the
retrieved similarity scores, 0 when no match is retrieved; it lies in
[0, 1] whenever every retrieved score does (scores are cosine
similarities, which range over [-1, 1], so the raw mean itself is not
always in [0, 1]); in the spec scenario with retrieved scores 0.95 and
0.82 the confidence is 0.885. -/
theorem confidence_mean_amended :
    (∀ (embed : EmbedFn) (score : ScoreFn) (generate : GenFn)
       (records : List StoredRecord) (now q : String) (k : Nat) (sp : Option String)
       (qvec : List ℚ) (r : ChatResponse),
       embed q = .ok qvec →
       search_and_respond embed score generate records now q k sp = .ok r →
       (indexQuery (score qvec) records k = [] → r.confidence = 0) ∧
       (indexQuery (score qvec) records k ≠ [] →
         r.confidence = ((indexQuery (score qvec) records k).map (fun d => d.score)).sum
           / ((indexQuery (score qvec) records k).length : ℚ)) ∧
       ((∀ m ∈ indexQuery (score qvec) records k, 0 ≤ m.score ∧ m.score ≤ 1) →
         0 ≤ r.confidence ∧ r.confidence ≤ 1)) ∧
    (search_and_respond okEmbed headScore okGenerate scenarioCorpus
        "t0" "What is X?" 2 none).toOption.map
        (fun r => (r.sources.map (fun s => s.score), r.confidence))
      = some ([0.95, 0.82], 0.885) := by
  constructor
  · intro embed score generate records now q k sp qvec r h1 h2
    obtain ⟨qvec', h1', hg, hs, hc, _, _⟩ :=
      search_and_respond_inv embed score generate records now q k sp r h2
    rw [h1] at h1'
    have hq : qvec = qvec' := Except.ok.inj h1'
    subst hq
    refine ⟨?_, ?_, ?_⟩
    · intro hempty
      rw [hc, hempty]
      simp
    · intro hne
      rw [hc, if_neg (by simpa [List.isEmpty_iff] using hne)]
    · intro hin
      by_cases hempty : indexQuery (score qvec) records k = []
      · rw [hc, hempty]
        norm_num
      · rw [hc, if_neg (by simpa [List.isEmpty_iff] using hempty)]
        have hmb := mean_bound ((indexQuery (score qvec) records k).map (fun d => d.score))
          (by simpa using hempty)
          (by
            intro x hx
            rcases List.mem_map.mp hx with ⟨m, hm, hmx⟩
            exact hmx ▸ hin m hm)
        rwa [List.length_map] at hmb
  · norm_num [search_and_respond, query_pinecone, generate_response, indexQuery,
      sortByScoreDesc, insertDesc, headScore, okEmbed, okGenerate, scenarioCorpus,
      Except.toOption, mkSource, bind, Except.bind]

/-- C1 counterexample: the claim also asserts the confidence is always a
scalar in [0, 1], but the coded confidence is the raw mean of cosine
similarity scores with no clamping; a single retrieved match of cosine
similarity -1 (opposite unit vectors) yields confidence -1, outside
[0, 1]. -/
theorem confidence_not_in_unit_interval :
    (search_and_respond okEmbed headScore okGenerate negCorpus
        "t0" "q" 1 none).toOption.map (fun r => r.confidence) = some (-1)
    ∧ ¬ (0 ≤ (-1 : ℚ)) := by
  constructor
  · norm_num [search_and_respond, query_pinecone, generate_response, indexQuery,
      sortByScoreDesc, insertDesc, headScore, okEmbed, okGenerate, negCorpus,
      Except.toOption, mkSource, bind, Except.bind]
  · norm_num

/-! Helper lemmas for the ingestion claims. -/

theorem zip_keys_mem {l₁ : List String} {l₂ : List (Option String)} {x : String}
    (h : x ∈ (l₁.zip l₂).map Prod.fst) : x ∈ l₁ := by
  rcases List.mem_map.mp h with ⟨p, hp, hpx⟩
  obtain ⟨a, b⟩ := p
  exact hpx ▸ (List.of_mem_zip hp).1

theorem zip_keys_nodup (l₁ : List String) :
    ∀ (l₂ : List (Option String)), l₁.Nodup → ((l₁.zip l₂).map Prod.fst).Nodup := by
  induction l₁ with
  | nil => intro l₂ _; simp
  | cons a t ih =>
    intro l₂ hnd
    cases l₂ with
    | nil => simp
    | cons b t₂ =>
      simp only [List.zip_cons_cons, List.map_cons]
      rw [List.nodup_cons]
      obtain ⟨ha, ht⟩ := List.nodup_cons.mp hnd
      exact ⟨fun hmem => ha (zip_keys_mem hmem), ih t₂ ht⟩

theorem processRow_of_fails (embed : EmbedFn) (upsertE : UpsertFn) (fileName : String)
    (columns : List String) (store : List StoredRecord) (index : Nat) (row : Row)
    (h : rowStepFails embed upsertE fileName columns store index row) :
    processRow embed upsertE fileName columns store index row = store := by
  unfold processRow
  by_cases hs : pyStrip (rowText columns row) = ""
  · simp [hs]
  · rcases h with ⟨e, he⟩ | ⟨v, e, hv, hu⟩
    · simp [hs, he]
    · simp [hs, hv, hu]

theorem processRows_append (embed : EmbedFn) (upsertE : UpsertFn) (fileName : String)
    (columns : List String) (l₁ l₂ : List Row) :
    ∀ (store : List StoredRecord) (index : Nat),
      processRows embed upsertE fileName columns store index (l₁ ++ l₂)
        = processRows embed upsertE fileName columns
            (processRows embed upsertE fileName columns store index l₁)
            (index + l₁.length) l₂ := by
  induction l₁ with
  | nil => intro store index; simp [processRows_nil]
  | cons r t ih =>
    intro store index
    rw [List.cons_append, processRows_cons, ih, processRows_cons]
    congr 1
    rw [List.length_cons]
    omega

theorem process_csv_files_nil (embed : EmbedFn) (upsertE : UpsertFn)
    (store : List StoredRecord) :
    process_csv_files embed upsertE store [] = .ok store := rfl

theorem process_csv_files_cons (embed : EmbedFn) (upsertE : UpsertFn)
    (store : List StoredRecord) (f : CsvParse) (rest : List CsvParse) :
    process_csv_files embed upsertE store (f :: rest) =
      match process_csv_file embed upsertE store f with
      | .ok (store', _) => process_csv_files embed upsertE store' rest
      | .error e => .error e := rfl

/-- C10: the record stored by `add_to_knowledge_base` has its metadata
key `text` set to the full input text, overwriting any caller-supplied
value under that key, while every other caller-supplied pair is stored
unchanged. -/
theorem add_metadata_text_overwrite (hashFn : String → Int) (embed : EmbedFn)
    (store : List StoredRecord) (text : String) (metadata : Option Metadata)
    (v : List ℚ) (s' : List StoredRecord)
    (h1 : embed text = .ok v)
    (h2 : add_to_knowledge_base hashFn embed store text metadata = .ok s') :
    s' = upsertRecord store
        ⟨toString (hashFn text), v, dictInsert (metadata.getD []) "text" text⟩ ∧
    (dictInsert (metadata.getD []) "text" text).lookup "text" = some text ∧
    ∀ k, k ≠ "text" →
      (dictInsert (metadata.getD []) "text" text).lookup k
        = (metadata.getD []).lookup k := by
  refine ⟨?_, lookup_dictInsert_self _ _ _, fun k hk => lookup_dictInsert_ne _ _ _ _ hk⟩
  have he : add_to_knowledge_base hashFn embed store text metadata
      = .ok (upsertRecord store
          ⟨toString (hashFn text), v, dictInsert (metadata.getD []) "text" text⟩) := by
    simp [add_to_knowledge_base, h1, Except.bind, bind]
  rw [he] at h2
  exact (Except.ok.inj h2).symm

/-- C10 witness: adding text `hello` with caller metadata carrying a
stale `text` key and an unrelated key `a`. -/
theorem add_metadata_text_overwrite_witness :
    (dictInsert [("text", "old"), ("a", "b")] "text" "hello").lookup "text"
        = some "hello" ∧
    (dictInsert [("text", "old"), ("a", "b")] "text" "hello").lookup "a"
        = some "b" := by
  have h := add_metadata_text_overwrite exHash okEmbed [] "hello"
    (some [("text", "old"), ("a", "b")]) [1] _ rfl rfl
  refine ⟨h.2.1, ?_⟩
  have h2 := h.2.2 "a" (by decide)
  simp only [Option.getD_some] at h2
  rw [h2]
  decide

/-- C7: record ids are content-deterministic, so a repeated identical
`add_to_knowledge_base` upserts to the same id instead of duplicating,
and re-ingesting an identical parsed tabular file a second time leaves
the Vector Store record count unchanged. -/
theorem deterministic_ids_idempotent :
    (∀ (hashFn : String → Int) (embed : EmbedFn) (store : List StoredRecord)
       (text : String) (md : Option Metadata) (v : List ℚ),
       embed text = .ok v →
       ∃ s₁ s₂, add_to_knowledge_base hashFn embed store text md = .ok s₁ ∧
         add_to_knowledge_base hashFn embed s₁ text md = .ok s₂ ∧
         s₂.length = s₁.length) ∧
    (∀ (embed : EmbedFn) (f : CsvFile) (store s₁ : List StoredRecord) (ret₁ : Option Nat),
       process_csv_file embed pineUpsert store (.parsed f) = .ok (s₁, ret₁) →
       ∃ s₂ ret₂, process_csv_file embed pineUpsert s₁ (.parsed f) = .ok (s₂, ret₂) ∧
         s₂.length = s₁.length) := by
  constructor
  · intro hashFn embed store text md v h
    have e1 : add_to_knowledge_base hashFn embed store text md
        = .ok (upsertRecord store
            ⟨toString (hashFn text), v, dictInsert (md.getD []) "text" text⟩) := by
      simp [add_to_knowledge_base, h, Except.bind, bind]
    have e2 : add_to_knowledge_base hashFn embed
        (upsertRecord store
          ⟨toString (hashFn text), v, dictInsert (md.getD []) "text" text⟩) text md
        = .ok (upsertRecord
            (upsertRecord store
              ⟨toString (hashFn text), v, dictInsert (md.getD []) "text" text⟩)
            ⟨toString (hashFn text), v, dictInsert (md.getD []) "text" text⟩) := by
      simp [add_to_knowledge_base, h, Except.bind, bind]
    refine ⟨_, _, e1, e2, ?_⟩
    apply length_upsertRecord_of_mem
    exact (mem_ids_upsertRecord store _ _).mpr (Or.inr rfl)
  · intro embed f store s₁ ret₁ h
    have h' : (if f.rows.isEmpty then .ok (store, none)
        else .ok (processRows embed pineUpsert f.name f.columns store 0 f.rows, none)
          : Except String (List StoredRecord × Option Nat)) = .ok (s₁, ret₁) := h
    by_cases he : f.rows.isEmpty
    · rw [if_pos he] at h'
      refine ⟨s₁, none, ?_, rfl⟩
      show (if f.rows.isEmpty then _ else _) = _
      rw [if_pos he]
    · rw [if_neg he] at h'
      have hs : processRows embed pineUpsert f.name f.columns store 0 f.rows = s₁ :=
        congrArg Prod.fst (Except.ok.inj h')
      refine ⟨processRows embed pineUpsert f.name f.columns s₁ 0 f.rows, none, ?_, ?_⟩
      · show (if f.rows.isEmpty then _ else _) = _
        rw [if_neg he]
      · rw [length_processRows_of_subset embed f.name f.columns f.rows s₁ 0 ?_]
        intro i hi
        rw [← hs]
        exact (mem_ids_processRows embed f.name f.columns f.rows store 0 i).mpr (Or.inr hi)

/-- C7 witness: adding the text `hello` twice over an empty store. -/
theorem deterministic_ids_idempotent_witness :
    ∃ s₁ s₂, add_to_knowledge_base exHash okEmbed [] "hello" none = .ok s₁ ∧
      add_to_knowledge_base exHash okEmbed s₁ "hello" none = .ok s₂ ∧
      s₂.length = s₁.length :=
  deterministic_ids_idempotent.1 exHash okEmbed [] "hello" none [1] rfl

/-- C5 counterexample: `process_csv_file` is annotated `-> None` and
every return statement is bare, so the scenario ingestion of a file with
2 valid rows and 1 all-empty row returns `None`, not the count 2 the
claim states. -/
theorem ingest_returns_none_not_count :
    (process_csv_file okEmbed pineUpsert [] (.parsed scenarioFile)).toOption.map
        (fun p => p.2) = some none
    ∧ (none : Option Nat) ≠ some 2 := by
  exact ⟨rfl, by decide⟩

/-- C5 (amended): a tabular ingestion call never returns a count — it
either raises or returns `None` — while still performing the upserts: on
the scenario file with 2 valid rows and 1 all-empty row, the all-empty
row is skipped and the Vector Store count increases by 2. -/
theorem ingest_scenario_upserts_two :
    (∀ (embed : EmbedFn) (upsertE : UpsertFn) (store : List StoredRecord)
       (input : CsvParse),
       (process_csv_file embed upsertE store input).toOption.map (fun p => p.2)
           = some none
       ∨ (process_csv_file embed upsertE store input).toOption = none) ∧
    (process_csv_file okEmbed pineUpsert [] (.parsed scenarioFile)).toOption.map
        (fun p => (p.1.length, p.2)) = some (2, none) := by
  constructor
  · intro embed upsertE store input
    cases input with
    | parsed f =>
      left
      show ((if f.rows.isEmpty then _ else _ :
        Except String (List StoredRecord × Option Nat)).toOption.map _) = _
      split <;> rfl
    | emptyData => left; rfl
    | parserError m => left; rfl
    | otherError e => right; rfl
  · decide

/-- C6 counterexample: for a file whose column is literally named
`source_file`, the dict spread of per-column values overwrites the
reserved provenance key, so the stored metadata carries the cell value
`evil` under `source_file` instead of the source filename `f.csv`. -/
theorem reserved_column_overwrites_metadata :
    (process_csv_file okEmbed pineUpsert [] (.parsed collisionFile)).toOption.map
        (fun p => p.1.map (fun r => r.metadata.lookup "source_file"))
      = some [some "evil"]
    ∧ collisionFile.name = "f.csv" ∧ ("evil" : String) ≠ "f.csv" := by
  refine ⟨by decide, rfl, by decide⟩

/-- C6 (amended): for every row of an ingested tabular file whose column
names avoid the reserved keys `text`, `source_file` and `row_index`, the
stored passage text is the space-joined concatenation of the row's
non-missing stringified values in column order, a row whose
concatenation strips to empty is skipped and not stored, and the stored
metadata carries the source filename, the row index, and every original
non-missing per-column value. -/
theorem row_text_and_metadata (embed : EmbedFn) (fileName : String)
    (columns : List String) (row : Row) (index : Nat) (store : List StoredRecord)
    (v : List ℚ)
    (hc1 : "text" ∉ columns) (hc2 : "source_file" ∉ columns)
    (hc3 : "row_index" ∉ columns) (hnd : columns.Nodup) :
    (pyStrip (rowText columns row) = "" →
      processRow embed pineUpsert fileName columns store index row = store) ∧
    (pyStrip (rowText columns row) ≠ "" → embed (rowText columns row) = .ok v →
      processRow embed pineUpsert fileName columns store index row
        = upsert_embedding store v
            (buildRowMetadata fileName columns row index (rowText columns row)) ∧
      (buildRowMetadata fileName columns row index (rowText columns row)).lookup "text"
        = some (rowText columns row) ∧
      (buildRowMetadata fileName columns row index (rowText columns row)).lookup "source_file"
        = some fileName ∧
      (buildRowMetadata fileName columns row index (rowText columns row)).lookup "row_index"
        = some (toString index) ∧
      (∀ p ∈ columns.zip row, ∀ val, p.2 = some val →
        (buildRowMetadata fileName columns row index (rowText columns row)).lookup p.1
          = some val)) := by
  have hkeys : ∀ (k : String), k ∉ columns →
      ∀ p ∈ columns.zip row, p.1 ≠ k := by
    intro k hk p hp hpk
    exact hk (hpk ▸ zip_keys_mem (List.mem_map_of_mem Prod.fst hp))
  constructor
  · intro hs
    unfold processRow
    simp [hs]
  · intro hs hemb
    refine ⟨?_, ?_, ?_, ?_, ?_⟩
    · unfold processRow
      simp [hs, hemb, pineUpsert]
    · unfold buildRowMetadata
      rw [lookup_foldl_colStep_not_mem _ _ _ (hkeys "text" hc1),
        lookup_dictInsert_ne _ _ _ _ (by decide),
        lookup_dictInsert_ne _ _ _ _ (by decide),
        lookup_dictInsert_self]
    · unfold buildRowMetadata
      rw [lookup_foldl_colStep_not_mem _ _ _ (hkeys "source_file" hc2),
        lookup_dictInsert_ne _ _ _ _ (by decide),
        lookup_dictInsert_self]
    · unfold buildRowMetadata
      rw [lookup_foldl_colStep_not_mem _ _ _ (hkeys "row_index" hc3),
        lookup_dictInsert_self]
    · intro p hp val hval
      unfold buildRowMetadata
      apply lookup_foldl_colStep_mem
      · exact zip_keys_nodup columns row hnd
      · have : p = (p.1, some val) := by
          rw [← hval]
        exact this ▸ hp

/-- C6 witness: one row of a one-column file with an ordinary column
name. -/
theorem row_text_and_metadata_witness :
    (buildRowMetadata "w.csv" ["colA"] [some "x"] 0
        (rowText ["colA"] [some "x"])).lookup "source_file" = some "w.csv" ∧
    (buildRowMetadata "w.csv" ["colA"] [some "x"] 0
        (rowText ["colA"] [some "x"])).lookup "colA" = some "x" := by
  have h := (row_text_and_metadata okEmbed "w.csv" ["colA"] [some "x"] 0 [] [1]
    (by decide) (by decide) (by decide) (by decide)).2 (by decide) rfl
  exact ⟨h.2.2.1, h.2.2.2.2 ("colA", some "x") (by decide) "x" rfl⟩

/-- C9: batch ingestion contains per-unit failures: a row whose
embedding or upsert raises is skipped, with the store unchanged by it
and the remaining rows processed at their original indices; and in
directory mode a file whose parse raises a parser error is logged and
skipped while the remaining files are processed. -/
theorem batch_failure_containment :
    (∀ (embed : EmbedFn) (upsertE : UpsertFn) (fileName : String)
       (columns : List String) (store : List StoredRecord) (index : Nat)
       (pre : List Row) (row : Row) (post : List Row),
       rowStepFails embed upsertE fileName columns
         (processRows embed upsertE fileName columns store index pre)
         (index + pre.length) row →
       processRows embed upsertE fileName columns store index (pre ++ row :: post)
         = processRows embed upsertE fileName columns
             (processRows embed upsertE fileName columns store index pre)
             (index + pre.length + 1) post) ∧
    (∀ (embed : EmbedFn) (upsertE : UpsertFn) (store s₁ : List StoredRecord)
       (pre post : List CsvParse) (m : String),
       process_csv_files embed upsertE store pre = .ok s₁ →
       process_csv_files embed upsertE store (pre ++ CsvParse.parserError m :: post)
         = process_csv_files embed upsertE s₁ post) := by
  constructor
  · intro embed upsertE fileName columns store index pre row post hfail
    rw [processRows_append, processRows_cons,
      processRow_of_fails _ _ _ _ _ _ _ hfail]
  · intro embed upsertE store s₁ pre post m h
    induction pre generalizing store with
    | nil =>
      rw [process_csv_files_nil] at h
      have hs : store = s₁ := Except.ok.inj h
      subst hs
      rw [List.nil_append, process_csv_files_cons]
      rfl
    | cons f rest ih =>
      rw [process_csv_files_cons] at h
      rw [List.cons_append, process_csv_files_cons]
      cases hf : process_csv_file embed upsertE store f with
      | ok p =>
        obtain ⟨s', ret⟩ := p
        rw [hf] at h
        simp only [hf]
        exact ih s' h
      | error e =>
        rw [hf] at h
        exact absurd h (by simp)

/-- C9 witness: a failing Embedding Provider on a 2-row file (the first
row fails and the second is still processed), and a directory whose
first file is a parser error followed by a parseable file. -/
theorem batch_failure_containment_witness :
    processRows badEmbed pineUpsert "sample.csv" ["colA"] [] 0
        ([[some "x"]] ++ [some "y"] :: [])
      = processRows badEmbed pineUpsert "sample.csv" ["colA"]
          (processRows badEmbed pineUpsert "sample.csv" ["colA"] [] 0 [[some "x"]])
          2 []
    ∧ process_csv_files okEmbed pineUpsert []
        ([] ++ CsvParse.parserError "bad" :: [.parsed collisionFile])
      = process_csv_files okEmbed pineUpsert [] [.parsed collisionFile] := by
  constructor
  · exact batch_failure_containment.1 badEmbed pineUpsert "sample.csv" ["colA"] [] 0
      [[some "x"]] [some "y"] [] (Or.inl ⟨"embedding failed", rfl⟩)
  · exact batch_failure_containment.2 okEmbed pineUpsert [] [] []
      [.parsed collisionFile] "bad" rfl

/-- C1 witness: the scenario call retrieves scores 0.95 and 0.82, both
in [0, 1], and its confidence 0.885 is in [0, 1]. -/
theorem confidence_mean_amended_witness :
    (0 : ℚ) ≤ 0.885 ∧ (0.885 : ℚ) ≤ 1 := by
  have hresp : search_and_respond okEmbed headScore okGenerate scenarioCorpus
      "t0" "What is X?" 2 none
      = .ok ⟨"generated answer", [⟨"t1", 0.95, []⟩, ⟨"t2", 0.82, []⟩],
          0.885, "t0", "What is X?"⟩ := by
    norm_num [search_and_respond, query_pinecone, generate_response, indexQuery,
      sortByScoreDesc, insertDesc, headScore, okEmbed, okGenerate, scenarioCorpus,
      mkSource, bind, Except.bind, List.lookup]
  exact (confidence_mean_amended.1 okEmbed headScore okGenerate scenarioCorpus
    "t0" "What is X?" 2 none [1] _ rfl hresp).2.2
    (by norm_num [indexQuery, sortByScoreDesc, insertDesc, headScore, scenarioCorpus])

/-- C3 witness: the scenario call returns 2 sources against top_k = 2. -/
theorem sources_bounded_witness :
    ([⟨"t1", 0.95, []⟩, ⟨"t2", 0.82, []⟩] : List Source).length ≤ 2 := by
  have hresp : search_and_respond okEmbed headScore okGenerate scenarioCorpus
      "t0" "What is X?" 2 none
      = .ok ⟨"generated answer", [⟨"t1", 0.95, []⟩, ⟨"t2", 0.82, []⟩],
          0.885, "t0", "What is X?"⟩ := by
    norm_num [search_and_respond, query_pinecone, generate_response, indexQuery,
      sortByScoreDesc, insertDesc, headScore, okEmbed, okGenerate, scenarioCorpus,
      mkSource, bind, Except.bind, List.lookup]
  exact (sources_bounded_and_rank_preserved.1 okEmbed headScore okGenerate
    scenarioCorpus "t0" "What is X?" 2 none [1] _ rfl hresp).1

/-- C4 witness: a respond call over the empty corpus with stub providers. -/
theorem empty_corpus_response_witness :
    search_and_respond okEmbed headScore okGenerate [] "t0" "q" 3 none
      = .ok ⟨"generated answer", [], 0, "t0", "q"⟩ :=
  (empty_corpus_response okEmbed headScore okGenerate "t0" "q" 3 none [1]
    "generated answer" rfl rfl).1

/-- C8 witness: a raising Embedding Provider and a raising Answer Model
each propagate their error through the respond call. -/
theorem respond_failures_propagate_witness :
    search_and_respond badEmbed headScore okGenerate [] "t0" "q" 1 none
        = .error "embedding failed" ∧
    search_and_respond okEmbed headScore badGenerate [] "t0" "q" 1 none
        = .error "generation failed" :=
  ⟨respond_failures_propagate.1 badEmbed headScore okGenerate [] "t0" "q" 1 none
      "embedding failed" rfl,
   respond_failures_propagate.2.1 okEmbed headScore badGenerate [] "t0" "q" 1 none
      [1] "generation failed" rfl rfl⟩

end ChatBot
